import Mathlib

/-!
Verification of the EMBI report metrics pipeline (`src/app.py`).

The pipeline is a polars program over a tidy `(date, region, value)` table.
This file gives a shallow embedding of its components:

* calendar dates as day counts (proleptic Gregorian, Hinnant's civil-days
  algorithm), matching Python `datetime.date` ordering and `timedelta`
  arithmetic;
* rows with rational values standing for the float64 `value` column;
* the schema adapter `load_data` (rename, wide-to-tidy unpivot, casts) over a
  small model of raw tables;
* the anchor resolver (`latest_date`, `start_year`, `start_qtr`,
  `start_month`, `month_ago`);
* the per-region metrics aggregation (`agg_exprs` / `metrics`), including the
  LatAm reference lookup with mean fallback and the basis-point spread;
* the date/region-filtered series and the 50-observation rolling mean.

Polars `group_by` (without `maintain_order`) and `DataFrame.sort` (without
`maintain_order`) specify the resulting row order only up to: the output is
some permutation of the per-region rows that is sorted by the requested key;
the order of groups and of key-tied rows is not guaranteed.  The metrics
table is therefore embedded as the relation `isMetricsOutput` rather than a
single list.
-/

namespace EMBI

/-- Days-from-civil-date (proleptic Gregorian calendar), valid for years ≥ 1.
Encodes a calendar date as a single day count so that date comparison and
`timedelta` arithmetic of Python `datetime.date` become `Nat` operations. -/
def daysFromCivil (y m d : ℕ) : ℕ :=
  let y2 := if m ≤ 2 then y - 1 else y
  let era := y2 / 400
  let yoe := y2 % 400
  let mp := (m + 9) % 12
  let doy := (153 * mp + 2) / 5 + (d - 1)
  let doe := yoe * 365 + yoe / 4 - yoe / 100 + doy
  era * 146097 + doe

/-- Inverse of `daysFromCivil`: recover `(year, month, day)` from a day
count. -/
def civilFromDays (z : ℕ) : ℕ × ℕ × ℕ :=
  let era := z / 146097
  let doe := z % 146097
  let yoe := (doe - doe / 1460 + doe / 36524 - doe / 146096) / 365
  let y := yoe + era * 400
  let doy := doe - (365 * yoe + yoe / 4 - yoe / 100)
  let mp := (5 * doy + 2) / 153
  let d := doy - (153 * mp + 2) / 5 + 1
  let m := if mp < 10 then mp + 3 else mp - 9
  (if m ≤ 2 then y + 1 else y, m, d)

/-- A calendar date, represented by its day count.  Ordering and subtraction
of a number of days coincide with Python `datetime.date` semantics. -/
abbrev Date := ℕ

/-- Build the `Date` for a given year/month/day. -/
def mkDate (y m d : ℕ) : Date := daysFromCivil y m d

/-- Year of a date (Python `date.year`). -/
def Date.year (dt : Date) : ℕ := (civilFromDays dt).1

/-- Month of a date (Python `date.month`). -/
def Date.month (dt : Date) : ℕ := (civilFromDays dt).2.1

/-- One tidy observation: a `(date, region, value)` row.  The float64 value
column is embedded as `ℚ`. -/
structure Row where
  date : Date
  region : String
  value : ℚ
deriving DecidableEq

/-- The rows of one region's group, in frame order (polars `group_by`
preserves the within-group row order in aggregations). -/
def groupRows (df : List Row) (r : String) : List Row :=
  df.filter (fun row => row.region == r)

/-- The distinct regions of the frame (the group keys of
`group_by("region")`). -/
def regionsOf (df : List Row) : List String :=
  (df.map Row.region).dedup

/-- Embedding of the aggregation expression
`pl.col("value").filter(pl.col("date") <= cutoff).last()`: the value of the
last row (in frame order) whose date is at or before `cutoff`, `none` when no
row qualifies. -/
def lastValueAtOrBefore (rows : List Row) (cutoff : Date) : Option ℚ :=
  ((rows.filter (fun row => decide (row.date ≤ cutoff))).map Row.value).getLast?

/-- Embedding of line 37: `latest_date = df.select(pl.col("date").max()).item()`,
`none` when the frame has no rows. -/
def latestDate? (df : List Row) : Option Date :=
  (df.map Row.date).max?

/-- The dates of the rows whose year equals the latest date's year (the
filter of lines 39-44). -/
def yearDates (df : List Row) (L : Date) : List Date :=
  (df.filter (fun row => row.date.year == L.year)).map Row.date

/-- Embedding of lines 39-44: `start_year` is the minimum date among rows
whose year equals the latest date's year. -/
def startYear? (df : List Row) (L : Date) : Option Date :=
  (yearDates df L).min?

/-- Embedding of line 45: `latest_quarter = (latest_date.month - 1) // 3`. -/
def latestQuarter (L : Date) : ℕ := (L.month - 1) / 3

/-- The dates of the rows in the latest date's year whose month lies between
`3*latest_quarter + 1` and `3*latest_quarter + 3` (inclusive, as
`is_between`; the filter of lines 46-54). -/
def qtrDates (df : List Row) (L : Date) : List Date :=
  (df.filter (fun row =>
      (row.date.year == L.year)
        && decide (3 * latestQuarter L + 1 ≤ row.date.month)
        && decide (row.date.month ≤ 3 * latestQuarter L + 3))).map Row.date

/-- Embedding of lines 46-54: `start_qtr` is the minimum date among rows in
the current quarter of the current year. -/
def startQtr? (df : List Row) (L : Date) : Option Date :=
  (qtrDates df L).min?

/-- The dates of the rows sharing the latest date's year and month (the
filter of lines 55-63). -/
def monthDates (df : List Row) (L : Date) : List Date :=
  (df.filter (fun row =>
      (row.date.year == L.year) && (row.date.month == L.month))).map Row.date

/-- Embedding of lines 55-63: `start_month` is the minimum date among rows
sharing the latest date's year and month. -/
def startMonth? (df : List Row) (L : Date) : Option Date :=
  (monthDates df L).min?

/-- Embedding of line 64: `month_ago = latest_date - timedelta(days=30)`. -/
def monthAgo (L : Date) : Date := L - 30

/-- One row of the aggregated metrics table: the region key, the `Valor`
column, and one labelled basis-point delta per period of the `periods`
dictionary (the `{label}_raw` columns are dropped by the code; we keep only
the derived deltas, as the output table does). -/
structure MRow where
  region : String
  valor : Option ℚ
  deltas : List (String × Option ℚ)
deriving DecidableEq

/-- Per-region aggregation (lines 67-80): `Valor` is the last value at or
before `latest_date`; each labelled delta is `(Valor - raw) * 1e2` where
`raw` is the last value at or before that period's cutoff, with null
propagation when either side is null. -/
def aggRegion (df : List Row) (L : Date) (ps : List (String × Date)) (r : String) : MRow :=
  let rows := groupRows df r
  { region := r
    valor := lastValueAtOrBefore rows L
    deltas := ps.map (fun lc =>
      (lc.1, (lastValueAtOrBefore rows L).bind (fun v =>
        (lastValueAtOrBefore rows lc.2).map (fun a => (v - a) * 100)))) }

/-- The multiset of metrics rows, one per region, listed here in
first-appearance region order (the group order polars actually produces is
unspecified; see `isMetricsOutput`). -/
def metricsRows (df : List Row) (L : Date) (ps : List (String × Date)) : List MRow :=
  (regionsOf df).map (aggRegion df L ps)

/-- Comparison used by `sort("Valor", descending=True)`: `a` may precede `b`
when `b`'s key is at most `a`'s; polars places nulls first by default. -/
def descOkB (a b : Option ℚ) : Bool :=
  match a, b with
  | none, _ => true
  | some _, none => false
  | some x, some y => decide (y ≤ x)

/-- Relation on metrics rows induced by `descOkB` on the `Valor` column. -/
def descRel (a b : MRow) : Prop := descOkB a.valor b.valor = true

instance : DecidableRel descRel := fun a b => by
  unfold descRel; infer_instance

/-- The contract of lines 73-82 (`group_by`, `agg`, `sort` without
`maintain_order`): an admissible metrics table is any permutation of the
per-region rows that is sorted descending by `Valor`.  Group order and the
relative order of `Valor`-tied rows are not specified by polars. -/
def isMetricsOutput (df : List Row) (L : Date) (ps : List (String × Date))
    (out : List MRow) : Prop :=
  out.Perm (metricsRows df L ps) ∧ out.Pairwise descRel

/-- One admissible metrics table, obtained by merge-sorting the per-region
rows by descending `Valor`. -/
def sortedMetrics (df : List Row) (L : Date) (ps : List (String × Date)) : List MRow :=
  (metricsRows df L ps).mergeSort (fun a b => descOkB a.valor b.valor)

/-- ASCII lower-casing of one character, as `str.to_lowercase` acts on the
ASCII region names of this dataset. -/
def lowerChar (c : Char) : Char :=
  if 65 ≤ c.toNat ∧ c.toNat ≤ 90 then Char.ofNat (c.toNat + 32) else c

/-- Case-insensitive match against the configured reference name (line 85:
`pl.col("region").str.to_lowercase() == "latino"`). -/
def isLatino (s : String) : Bool :=
  String.mk (s.data.map lowerChar) == "latino"

/-- Mean of the `Valor` column as polars `Series.mean` computes it: `none` on
an all-null or empty column, otherwise the arithmetic mean of the non-null
entries. -/
def meanValor? (out : List MRow) : Option ℚ :=
  if out.filterMap MRow.valor = [] then none
  else some ((out.filterMap MRow.valor).sum / (out.filterMap MRow.valor).length)

/-- Embedding of lines 85-86: the `Valor` of the first row whose region
case-insensitively equals "latino", falling back to the column mean when no
row matches. -/
def latamVal (out : List MRow) : Option ℚ :=
  match out.find? (fun mr => isLatino mr.region) with
  | some mr => mr.valor
  | none => meanValor? out

/-- Embedding of lines 88-90: append the column
`(Valor - latam_val) * 1e2` (`Spread vs LatAm`) to every row, with null
propagation. -/
def withSpread (out : List MRow) : List (MRow × Option ℚ) :=
  out.map (fun mr =>
    (mr, mr.valor.bind (fun v => (latamVal out).map (fun lv => (v - lv) * 100))))

/-- Embedding of lines 139-144: the chart series, filtered to the selected
regions and to the closed date interval chosen on the slider. -/
def seriesOf (df : List Row) (sel : List String) (sd ed : Date) : List Row :=
  (df.filter (fun row => sel.contains row.region)).filter
    (fun row => decide (sd ≤ row.date) && decide (row.date ≤ ed))

/-- The same-region rows of `s` up to and including position `i` — the window
material available to `rolling_mean(50).over("region")` at that position. -/
def priorSame (s : List Row) (i : ℕ) (reg : String) : List Row :=
  (s.take (i + 1)).filter (fun row => row.region == reg)

/-- Arithmetic mean of a list of rationals. -/
def listMean (l : List ℚ) : ℚ := l.sum / l.length

/-- Embedding of lines 166-169: the value of
`pl.col("value").rolling_mean(50).over("region")` at position `i` of the
filtered series: null while fewer than 50 same-region observations are
available (`min_periods` defaults to the window size), otherwise the mean of
the last 50 same-region values. -/
def rollAt (s : List Row) (i : ℕ) : Option ℚ :=
  match s[i]? with
  | none => none
  | some row =>
    let prior := priorSame s i row.region
    if prior.length < 50 then none
    else some (listMean ((prior.map Row.value).drop (prior.length - 50)))

/-- The rolling-mean chart frame `(date, region, rolling50)` of lines
166-171. -/
def rollSeries (s : List Row) : List (Date × String × Option ℚ) :=
  s.mapIdx (fun i row => (row.date, row.region, rollAt s i))

/-- Formalisation of the spec's words "value of the observation with the
maximum date ≤ cutoff": `v` is the value of some row at or before `cutoff`
whose date is maximal among such rows.  Stated from the spec, to be compared
with the code's `lastValueAtOrBefore`. -/
def IsLatestValueAtOrBefore (rows : List Row) (cutoff : Date) (v : ℚ) : Prop :=
  ∃ row ∈ rows, row.date ≤ cutoff ∧ row.value = v ∧
    ∀ row2 ∈ rows, row2.date ≤ cutoff → row2.date ≤ row.date

instance (rows : List Row) (cutoff : Date) (v : ℚ) :
    Decidable (IsLatestValueAtOrBefore rows cutoff v) := by
  unfold IsLatestValueAtOrBefore; infer_instance

/-- Formalisation of the spec's tie-break rule "ties broken by original
region-iteration order": rows with equal `Valor` must keep the relative order
their regions have in `regionsOf`. -/
def StableByRegionOrder (df : List Row) (out : List MRow) : Prop :=
  out.Pairwise (fun a b => a.valor = b.valor →
    (regionsOf df).indexOf a.region ≤ (regionsOf df).indexOf b.region)

instance (df : List Row) (out : List MRow) : Decidable (StableByRegionOrder df out) := by
  unfold StableByRegionOrder; infer_instance

/-- The ways the loading stage can stop before producing a frame.
`schemaError` is the `st.error("Dataset missing required columns")` halt of
lines 33-35; `columnNotFound c` is polars' `ColumnNotFoundError` raised while
collecting a plan that refers to an absent column `c`; `castInvalid` stands
for a strict-cast failure; `attrNoneYear` is the Python `AttributeError`
raised on line 38 when `latest_date` is `None` and `.year` is taken.
`emptyDataset` is modelled from the spec: the spec's error taxonomy names an
`EmptyDatasetError` for "no rows after load", but no code path in
`src/app.py` raises or represents it. -/
inductive Err where
  | schemaError
  | columnNotFound (c : String)
  | castInvalid
  | attrNoneYear
  | emptyDataset
deriving DecidableEq

/-- A raw cell of the input file: a date, a string, a float, or a null. -/
inductive Cell where
  | d (dt : Date)
  | s (x : String)
  | f (q : ℚ)
  | null
deriving DecidableEq

/-- A raw columnar table: a header of column names and rows of cells (one
cell per header entry, positionally). -/
structure RawTable where
  header : List String
  cells : List (List Cell)
deriving DecidableEq

/-- The cell of a row under a named column (positionally via the header). -/
def cellAt (t : RawTable) (row : List Cell) (c : String) : Cell :=
  match t.header.indexOf? c with
  | some i => row.getD i Cell.null
  | none => Cell.null

/-- Embedding of lines 15-16: rename a capitalized `Date` column to `date`
when no lowercase `date` column exists. -/
def renameDate (t : RawTable) : RawTable :=
  if "Date" ∈ t.header ∧ "date" ∉ t.header then
    { t with header := t.header.map (fun c => if c = "Date" then "date" else c) }
  else t

/-- Embedding of lines 17-24: when both `region` and `value` are absent
(`isdisjoint`), unpivot every non-`date` column into tidy
`(date, region, value)` triples; polars emits the melted rows column block by
column block.  Referring to a missing `date` index column surfaces as a
`ColumnNotFoundError` when the lazy plan is collected. -/
def unpivotStep (t : RawTable) : Except Err RawTable :=
  if "region" ∉ t.header ∧ "value" ∉ t.header then
    if "date" ∈ t.header then
      let cols := t.header.filter (fun c => c ≠ "date")
      Except.ok
        { header := ["date", "region", "value"]
          cells := (cols.map (fun c =>
            t.cells.map (fun row => [cellAt t row "date", Cell.s c, cellAt t row c]))).flatten }
    else Except.error (Err.columnNotFound "date")
  else Except.ok t

/-- Cast one cell to the date type (`pl.col("date").cast(pl.Date)`): only
date cells and nulls are kept; any other content is a strict-cast failure. -/
def castDateCell : Cell → Except Err Cell
  | Cell.d dt => Except.ok (Cell.d dt)
  | Cell.null => Except.ok Cell.null
  | _ => Except.error Err.castInvalid

/-- Cast one cell to text (`pl.col("region").cast(pl.Utf8)`). -/
def castStrCell : Cell → Except Err Cell
  | Cell.s x => Except.ok (Cell.s x)
  | Cell.null => Except.ok Cell.null
  | _ => Except.error Err.castInvalid

/-- Cast one cell to float64 (`pl.col("value").cast(pl.Float64)`). -/
def castFloatCell : Cell → Except Err Cell
  | Cell.f q => Except.ok (Cell.f q)
  | Cell.null => Except.ok Cell.null
  | _ => Except.error Err.castInvalid

/-- Traverse a list of fallible computations, stopping at the first error. -/
def collectE {α β : Type} (f : α → Except Err β) : List α → Except Err (List β)
  | [] => Except.ok []
  | a :: l => match f a with
    | Except.error e => Except.error e
    | Except.ok b => match collectE f l with
      | Except.error e => Except.error e
      | Except.ok bs => Except.ok (b :: bs)

/-- Embedding of lines 25-29 as observed when the lazy frame is collected:
the three casts first resolve their columns — a missing one raises
`ColumnNotFoundError` (checked in the order `date`, `region`, `value` the
expressions are listed in) — and then convert every cell of those columns. -/
def castStep (t : RawTable) : Except Err RawTable :=
  if "date" ∉ t.header then Except.error (Err.columnNotFound "date")
  else if "region" ∉ t.header then Except.error (Err.columnNotFound "region")
  else if "value" ∉ t.header then Except.error (Err.columnNotFound "value")
  else
    match collectE (fun row =>
      match castDateCell (cellAt t row "date"),
            castStrCell (cellAt t row "region"),
            castFloatCell (cellAt t row "value") with
      | Except.ok cd, Except.ok cr, Except.ok cv => Except.ok [cd, cr, cv]
      | Except.error e, _, _ => Except.error e
      | _, Except.error e, _ => Except.error e
      | _, _, Except.error e => Except.error e) t.cells with
    | Except.error e => Except.error e
    | Except.ok rows => Except.ok { header := ["date", "region", "value"], cells := rows }

/-- Embedding of `load_data` (lines 9-29) as materialised by `lf.collect()`
on line 32: rename, conditional unpivot, then the three casts. -/
def loadData (t : RawTable) : Except Err RawTable :=
  match unpivotStep (renameDate t) with
  | Except.error e => Except.error e
  | Except.ok t2 => castStep t2

/-- Embedding of lines 31-35: collect the adapted frame, then halt with the
"Dataset missing required columns" error when any canonical column is
absent. -/
def loadAndCheck (t : RawTable) : Except Err RawTable :=
  match loadData t with
  | Except.error e => Except.error e
  | Except.ok t2 =>
    if "date" ∈ t2.header ∧ "region" ∈ t2.header ∧ "value" ∈ t2.header then Except.ok t2
    else Except.error Err.schemaError

/-- Embedding of lines 37-38: `latest_date = df.select(pl.col("date").max()).item()`
followed by `latest_date.year`.  On an empty frame the max is `None` and the
attribute access raises; no dedicated empty-dataset error exists in the
code. -/
def latestYearE (df : List Row) : Except Err ℕ :=
  match latestDate? df with
  | none => Except.error Err.attrNoneYear
  | some L => Except.ok L.year

/-! Concrete input tables used by the counterexamples and witnesses below. -/

/-- A one-region frame whose rows are NOT in chronological order: the
max-date row comes first. -/
def dfC1 : List Row := [⟨mkDate 2024 3 15, "A", 1⟩, ⟨mkDate 2024 1 1, "A", 2⟩]

/-- The same observations as `dfC1`, listed chronologically. -/
def dfC1s : List Row := [⟨mkDate 2024 1 1, "A", 2⟩, ⟨mkDate 2024 3 15, "A", 1⟩]

/-- Two regions; region "B" has no observation at or before 2024-02-01. -/
def dfC2 : List Row := [⟨mkDate 2024 1 1, "A", 1⟩, ⟨mkDate 2024 3 1, "B", 2⟩]

/-- The periods dictionary used with `dfC2`: one anchor that predates every
"B" row. -/
def psC2 : List (String × Date) := [("YTD", mkDate 2024 2 1)]

/-- A one-region frame spanning two years, latest date 2024-03-15. -/
def dfC3 : List Row :=
  [⟨mkDate 2023 12 29, "A", 5⟩, ⟨mkDate 2024 1 5, "A", 1⟩,
   ⟨mkDate 2024 2 10, "A", 2⟩, ⟨mkDate 2024 3 1, "A", 3⟩, ⟨mkDate 2024 3 15, "A", 4⟩]

/-- The spec's reference-fallback example: regions Asia and Africa with
current values 1.0 and 3.0, no "Latino" region. -/
def dfC4 : List Row := [⟨mkDate 2024 1 2, "Asia", 1⟩, ⟨mkDate 2024 1 2, "Africa", 3⟩]

/-- Latest date of `dfC4`. -/
def LC4 : Date := mkDate 2024 1 2

/-- Periods dictionary used with `dfC4`. -/
def psC4 : List (String × Date) := [("YTD", mkDate 2024 1 2)]

/-- The (unique) admissible metrics table for `dfC4`: Africa (3.0) sorts
before Asia (1.0). -/
def outC4 : List MRow := [aggRegion dfC4 LC4 psC4 "Africa", aggRegion dfC4 LC4 psC4 "Asia"]

/-- A frame containing an exact (case-insensitive) reference region. -/
def dfLat : List Row := [⟨mkDate 2024 1 2, "Latino", 7⟩, ⟨mkDate 2024 1 2, "Asia", 9⟩]

/-- Latest date of `dfLat`. -/
def LLat : Date := mkDate 2024 1 2

/-- Periods dictionary used with `dfLat`. -/
def psLat : List (String × Date) := [("YTD", mkDate 2024 1 2)]

/-- An admissible metrics table for `dfLat`: Asia (9.0) before Latino
(7.0). -/
def outLat : List MRow := [aggRegion dfLat LLat psLat "Asia", aggRegion dfLat LLat psLat "Latino"]

/-- Two regions with TIED current values (both 5.0) on the same date. -/
def df6 : List Row := [⟨mkDate 2024 1 2, "A", 5⟩, ⟨mkDate 2024 1 2, "B", 5⟩]

/-- Latest date of `df6`. -/
def L6 : Date := mkDate 2024 1 2

/-- Periods dictionary used with `df6` (the YTD anchor and the raw 30-day
lookback, as the code builds them for this frame). -/
def ps6 : List (String × Date) := [("YTD", mkDate 2024 1 2), ("1M", mkDate 2024 1 2 - 30)]

/-- The metrics rows of `df6` in first-appearance region order. -/
def out6id : List MRow := [aggRegion df6 L6 ps6 "A", aggRegion df6 L6 ps6 "B"]

/-- The metrics rows of `df6` with the tied rows swapped. -/
def out6swap : List MRow := [aggRegion df6 L6 ps6 "B", aggRegion df6 L6 ps6 "A"]

/-- Two regions with distinct current values 1.0 and 3.0. -/
def df7 : List Row := [⟨mkDate 2024 1 2, "A", 1⟩, ⟨mkDate 2024 1 3, "B", 3⟩]

/-- Latest date of `df7`. -/
def L7 : Date := mkDate 2024 1 3

/-- Periods dictionary used with `df7`. -/
def ps7 : List (String × Date) := [("YTD", mkDate 2024 1 2)]

/-- The descending metrics table of `df7`: B (3.0) before A (1.0). -/
def out7 : List MRow := [aggRegion df7 L7 ps7 "B", aggRegion df7 L7 ps7 "A"]

/-- A 55-observation single-region series for exercising the 50-row rolling
window. -/
def df5 : List Row := (List.range 55).map (fun i => ⟨mkDate 2024 1 1 + i, "A", (i : ℚ)⟩)

/-- Region selection used with `df5`. -/
def sel5 : List String := ["A"]

/-- Start of the date filter used with `df5`. -/
def sd5 : Date := mkDate 2024 1 1

/-- End of the date filter used with `df5`. -/
def ed5 : Date := mkDate 2024 12 31

/-- A table with a `date` and a `region` column but no `value` column. -/
def raw8 : RawTable :=
  { header := ["date", "region"], cells := [[Cell.d (mkDate 2024 1 2), Cell.s "Asia"]] }

/-- An already-tidy table with all three canonical columns. -/
def rawGood : RawTable :=
  { header := ["date", "region", "value"]
    cells := [[Cell.d (mkDate 2024 1 2), Cell.s "Asia", Cell.f 7]] }

/-- A table with a `date` and a `value` column but no `region` column. -/
def raw10 : RawTable :=
  { header := ["date", "value"], cells := [[Cell.d (mkDate 2024 1 2), Cell.f 1]] }

/-! Helper lemmas. -/

theorem getLast?_mem {α : Type} {l : List α} {a : α} (h : l.getLast? = some a) : a ∈ l := by
  rcases List.getLast?_eq_some_iff.mp h with ⟨ys, rfl⟩
  simp

theorem rel_getLast? {α : Type} {r : α → α → Prop} (hrefl : ∀ a, r a a) {l : List α} {a : α}
    (hs : l.Pairwise r) (h : l.getLast? = some a) : ∀ b ∈ l, r b a := by
  rcases List.getLast?_eq_some_iff.mp h with ⟨ys, rfl⟩
  rw [List.pairwise_append] at hs
  intro b hb
  rcases List.mem_append.mp hb with hb2 | hb2
  · exact hs.2.2 b hb2 a (by simp)
  · simp only [List.mem_singleton] at hb2
    subst hb2
    exact hrefl b

theorem min?_spec_of_mem {l : List ℕ} {x : ℕ} (hx : x ∈ l) :
    ∃ a, l.min? = some a ∧ a ∈ l ∧ ∀ b ∈ l, a ≤ b := by
  cases hmin : l.min? with
  | none =>
    rw [List.min?_eq_none_iff] at hmin
    subst hmin
    cases hx
  | some a =>
    refine ⟨a, rfl, List.min?_mem (fun a b => min_choice a b) hmin, ?_⟩
    intro b hb
    exact (List.le_min?_iff (fun a b c => le_min_iff) hmin).mp le_rfl b hb

theorem max?_mem_nat {l : List ℕ} {a : ℕ} (h : l.max? = some a) : a ∈ l :=
  List.max?_mem (fun a b => max_choice a b) h

theorem month_in_own_quarter {m : ℕ} (hm : 1 ≤ m) :
    3 * ((m - 1) / 3) + 1 ≤ m ∧ m ≤ 3 * ((m - 1) / 3) + 3 := by omega

/-!
Claim theorems.
-/

/-- C1, counterexample.  On an input whose rows are not chronologically
ordered (`dfC1` lists the 2024-03-15 observation before the 2024-01-01 one),
the code's `current_value` (`.filter(date <= latest).last()`) is the value
2 of the later-listed row, which is NOT the value of the observation with
the maximum date ≤ `latest_date`: the claim's "regardless of row order" part
fails. -/
theorem lastValue_not_maxDate_cex :
    latestDate? dfC1 = some (mkDate 2024 3 15) ∧
    (aggRegion dfC1 (mkDate 2024 3 15) [] "A").valor = some 2 ∧
    ¬ IsLatestValueAtOrBefore (groupRows dfC1 "A") (mkDate 2024 3 15) 2 :=
  ⟨by decide, by decide, by decide⟩

/-- C1, amended: when a region's rows are listed in non-decreasing date
order, the code's `current_value`/anchor lookup (last listed value at or
before the cutoff) is the value of an observation with the maximum date at
or before that cutoff; and the `Valor` column of the metrics row is exactly
this lookup at `latest_date`. -/
theorem lastValue_is_maxDate_of_sorted (df : List Row) (L : Date)
    (ps : List (String × Date)) (r : String) (cutoff : Date)
    (hs : (groupRows df r).Pairwise (fun a b => a.date ≤ b.date))
    (v : ℚ) (hv : lastValueAtOrBefore (groupRows df r) cutoff = some v) :
    IsLatestValueAtOrBefore (groupRows df r) cutoff v ∧
    (aggRegion df L ps r).valor = lastValueAtOrBefore (groupRows df r) L := by
  refine ⟨?_, rfl⟩
  unfold lastValueAtOrBefore at hv
  rw [List.getLast?_map] at hv
  rcases Option.map_eq_some'.mp hv with ⟨row, hlast, hval⟩
  have hmemf : row ∈ (groupRows df r).filter (fun row2 => decide (row2.date ≤ cutoff)) :=
    getLast?_mem hlast
  have hmem : row ∈ groupRows df r := (List.mem_filter.mp hmemf).1
  have hle : row.date ≤ cutoff := of_decide_eq_true (List.mem_filter.mp hmemf).2
  refine ⟨row, hmem, hle, hval, ?_⟩
  intro row2 hm2 hle2
  have hmf2 : row2 ∈ (groupRows df r).filter (fun row3 => decide (row3.date ≤ cutoff)) :=
    List.mem_filter.mpr ⟨hm2, decide_eq_true hle2⟩
  have hsf : ((groupRows df r).filter (fun row3 => decide (row3.date ≤ cutoff))).Pairwise
      (fun a b => a.date ≤ b.date) := hs.filter _
  exact rel_getLast? (r := fun a b : Row => a.date ≤ b.date)
    (fun a => le_refl a.date) hsf hlast row2 hmf2

/-- C1, witness: on the chronologically listed frame `dfC1s` the amended
theorem applies and yields the max-date value 1. -/
theorem lastValue_is_maxDate_witness :
    IsLatestValueAtOrBefore (groupRows dfC1s "A") (mkDate 2024 3 15) 1 ∧
    (aggRegion dfC1s (mkDate 2024 3 15) [] "A").valor =
      lastValueAtOrBefore (groupRows dfC1s "A") (mkDate 2024 3 15) :=
  lastValue_is_maxDate_of_sorted dfC1s (mkDate 2024 3 15) [] "A" (mkDate 2024 3 15)
    (by decide) 1 (by decide)

/-- C2: when a region has no observation at or before an anchor date, the
delta for that label is null (the pair `(label, none)` is the region's entry
for that label); every label of the periods dictionary still receives an
entry, and every region still receives a metrics row — the condition is
non-fatal. -/
theorem missingAnchor_delta_null (df : List Row) (L : Date) (ps : List (String × Date))
    (r lbl : String) (c : Date)
    (hmem : (lbl, c) ∈ ps)
    (hnone : ∀ row ∈ groupRows df r, ¬ row.date ≤ c) :
    (lbl, (none : Option ℚ)) ∈ (aggRegion df L ps r).deltas ∧
    (∀ lbl2 c2, (lbl2, c2) ∈ ps → ∃ o, (lbl2, o) ∈ (aggRegion df L ps r).deltas) ∧
    (∀ r2 ∈ regionsOf df, ∃ mr ∈ metricsRows df L ps, mr.region = r2) := by
  have hfilter : (groupRows df r).filter (fun row => decide (row.date ≤ c)) = [] := by
    rw [List.filter_eq_nil_iff]
    intro a ha
    simp only [decide_eq_true_eq]
    exact hnone a ha
  have hlast : lastValueAtOrBefore (groupRows df r) c = none := by
    unfold lastValueAtOrBefore
    rw [hfilter]
    rfl
  refine ⟨?_, ?_, ?_⟩
  · have hm := List.mem_map_of_mem (fun lc : String × Date =>
      (lc.1, (lastValueAtOrBefore (groupRows df r) L).bind (fun v =>
        (lastValueAtOrBefore (groupRows df r) lc.2).map (fun a => (v - a) * 100)))) hmem
    have hbind : (lastValueAtOrBefore (groupRows df r) L).bind (fun v =>
        (lastValueAtOrBefore (groupRows df r) c).map (fun a => (v - a) * 100)) = none := by
      rw [hlast]
      cases lastValueAtOrBefore (groupRows df r) L <;> rfl
    simpa [aggRegion, hbind] using hm
  · intro lbl2 c2 h2
    refine ⟨(lastValueAtOrBefore (groupRows df r) L).bind (fun v =>
      (lastValueAtOrBefore (groupRows df r) c2).map (fun a => (v - a) * 100)), ?_⟩
    have hm := List.mem_map_of_mem (fun lc : String × Date =>
      (lc.1, (lastValueAtOrBefore (groupRows df r) L).bind (fun v =>
        (lastValueAtOrBefore (groupRows df r) lc.2).map (fun a => (v - a) * 100)))) h2
    simpa [aggRegion] using hm
  · intro r2 h2
    exact ⟨aggRegion df L ps r2,
      List.mem_map_of_mem (aggRegion df L ps) h2, rfl⟩

/-- C2, witness: in `dfC2` region "B" has no row at or before the
2024-02-01 anchor, so its "YTD" delta is null while both regions keep a
metrics row. -/
theorem missingAnchor_delta_null_witness :
    ("YTD", (none : Option ℚ)) ∈ (aggRegion dfC2 (mkDate 2024 3 1) psC2 "B").deltas ∧
    (∀ lbl2 c2, (lbl2, c2) ∈ psC2 →
      ∃ o, (lbl2, o) ∈ (aggRegion dfC2 (mkDate 2024 3 1) psC2 "B").deltas) ∧
    (∀ r2 ∈ regionsOf dfC2, ∃ mr ∈ metricsRows dfC2 (mkDate 2024 3 1) psC2, mr.region = r2) :=
  missingAnchor_delta_null dfC2 (mkDate 2024 3 1) psC2 "B" "YTD" (mkDate 2024 2 1)
    (by decide) (by decide)

/-- C3: for a non-empty series (witnessed by `latest_date`), the YTD anchor
is the minimum date among rows of the latest year, the QTD anchor the
minimum date among rows of that year whose month lies in the current quarter
(`(month-1)//3`), the MTD anchor the minimum date among rows of that year
and month — each minimum exists and belongs to the respective filtered
set — and the 1M anchor is `latest_date - 30` with no row lookup; in
particular 2024-03-15 minus 30 days is 2024-02-14. -/
theorem anchors_are_period_minima (df : List Row) (L : Date)
    (hL : latestDate? df = some L) (hm : 1 ≤ L.month) :
    (∃ sy, startYear? df L = some sy ∧ sy ∈ yearDates df L ∧ ∀ d2 ∈ yearDates df L, sy ≤ d2) ∧
    (∃ sq, startQtr? df L = some sq ∧ sq ∈ qtrDates df L ∧ ∀ d2 ∈ qtrDates df L, sq ≤ d2) ∧
    (∃ sm, startMonth? df L = some sm ∧
      sm ∈ monthDates df L ∧ ∀ d2 ∈ monthDates df L, sm ≤ d2) ∧
    monthAgo L = L - 30 ∧
    monthAgo (mkDate 2024 3 15) = mkDate 2024 2 14 := by
  have hLmem : L ∈ df.map Row.date := max?_mem_nat hL
  rcases List.mem_map.mp hLmem with ⟨row, hrow, hrd⟩
  have hy : L ∈ yearDates df L := by
    unfold yearDates
    refine List.mem_map.mpr ⟨row, List.mem_filter.mpr ⟨hrow, ?_⟩, hrd⟩
    rw [hrd]
    simp
  have hq : L ∈ qtrDates df L := by
    unfold qtrDates
    refine List.mem_map.mpr ⟨row, List.mem_filter.mpr ⟨hrow, ?_⟩, hrd⟩
    rcases month_in_own_quarter hm with ⟨h1, h2⟩
    rw [hrd]
    simp only [latestQuarter, Bool.and_eq_true, beq_iff_eq, decide_eq_true_eq]
    exact ⟨⟨by simp, h1⟩, h2⟩
  have hmo : L ∈ monthDates df L := by
    unfold monthDates
    refine List.mem_map.mpr ⟨row, List.mem_filter.mpr ⟨hrow, ?_⟩, hrd⟩
    rw [hrd]
    simp
  exact ⟨min?_spec_of_mem hy, min?_spec_of_mem hq, min?_spec_of_mem hmo, rfl, by decide⟩

/-- C3, witness: on `dfC3` (latest date 2024-03-15) the anchor
characterisations hold. -/
theorem anchors_are_period_minima_witness :
    (∃ sy, startYear? dfC3 (mkDate 2024 3 15) = some sy ∧
      sy ∈ yearDates dfC3 (mkDate 2024 3 15) ∧
      ∀ d2 ∈ yearDates dfC3 (mkDate 2024 3 15), sy ≤ d2) ∧
    (∃ sq, startQtr? dfC3 (mkDate 2024 3 15) = some sq ∧
      sq ∈ qtrDates dfC3 (mkDate 2024 3 15) ∧
      ∀ d2 ∈ qtrDates dfC3 (mkDate 2024 3 15), sq ≤ d2) ∧
    (∃ sm, startMonth? dfC3 (mkDate 2024 3 15) = some sm ∧
      sm ∈ monthDates dfC3 (mkDate 2024 3 15) ∧
      ∀ d2 ∈ monthDates dfC3 (mkDate 2024 3 15), sm ≤ d2) ∧
    monthAgo (mkDate 2024 3 15) = mkDate 2024 3 15 - 30 ∧
    monthAgo (mkDate 2024 3 15) = mkDate 2024 2 14 :=
  anchors_are_period_minima dfC3 (mkDate 2024 3 15) (by decide) (by decide)

theorem meanValor?_perm {o1 o2 : List MRow} (h : o1.Perm o2) : meanValor? o1 = meanValor? o2 := by
  have hfm := List.Perm.filterMap MRow.valor h
  by_cases h1 : o1.filterMap MRow.valor = []
  · have h2 : o2.filterMap MRow.valor = [] := by
      rw [h1] at hfm
      exact (List.perm_nil.mp hfm.symm)
    simp [meanValor?, h1, h2]
  · have h2 : ¬ o2.filterMap MRow.valor = [] := by
      intro h2
      rw [h2] at hfm
      exact h1 (List.perm_nil.mp hfm)
    simp only [meanValor?, h1, h2, if_false, hfm.sum_eq, hfm.length_eq]

theorem outC4_latamVal : latamVal outC4 = some 2 := by
  have hfind : outC4.find? (fun mr => isLatino mr.region) = none := by decide
  have hfm : outC4.filterMap MRow.valor = [3, 1] := by decide
  have h1 : latamVal outC4 = meanValor? outC4 := by
    unfold latamVal
    rw [hfind]
  rw [h1]
  unfold meanValor?
  rw [hfm, if_neg (by simp)]
  rw [Option.some_inj]
  norm_num

/-- C4: (1) when no region case-insensitively matches "latino", the
reference value is the mean of the regions' current values; (2) every row's
spread is `(current_value - reference_value) * 100`; (3) the row the
reference lookup finds gets spread exactly 0; (4) on the spec's example —
regions Asia (1.0) and Africa (3.0), no Latino — the reference value is 2.0
and the spreads are +100.0 for Africa and -100.0 for Asia. -/
theorem latam_reference_ok :
    (∀ df L ps out, isMetricsOutput df L ps out →
      (∀ mr ∈ out, isLatino mr.region = false) →
      latamVal out = meanValor? (metricsRows df L ps)) ∧
    (∀ out (mr : MRow) v lv, mr ∈ out → mr.valor = some v → latamVal out = some lv →
      (mr, some ((v - lv) * 100)) ∈ withSpread out) ∧
    (∀ out (mr2 : MRow) v, out.find? (fun mr => isLatino mr.region) = some mr2 →
      mr2.valor = some v → (mr2, some 0) ∈ withSpread out) ∧
    (isMetricsOutput dfC4 LC4 psC4 outC4 ∧ latamVal outC4 = some 2 ∧
      withSpread outC4 = [(aggRegion dfC4 LC4 psC4 "Africa", some 100),
                          (aggRegion dfC4 LC4 psC4 "Asia", some (-100))]) := by
  refine ⟨?_, ?_, ?_, ?_, ?_, ?_⟩
  · intro df L ps out h hno
    have hfind : out.find? (fun mr => isLatino mr.region) = none := by
      rw [List.find?_eq_none]
      intro x hx
      rw [hno x hx]
      simp
    unfold latamVal
    rw [hfind]
    exact meanValor?_perm h.1
  · intro out mr v lv hmem hv hlv
    unfold withSpread
    exact List.mem_map.mpr ⟨mr, hmem, by rw [hv, hlv]; rfl⟩
  · intro out mr2 v hf hv
    have hlat : latamVal out = some v := by
      unfold latamVal
      rw [hf]
      exact hv
    unfold withSpread
    refine List.mem_map.mpr ⟨mr2, List.mem_of_find?_eq_some hf, ?_⟩
    rw [hv, hlat]
    simp
  · constructor
    · have hmr : metricsRows dfC4 LC4 psC4 =
          [aggRegion dfC4 LC4 psC4 "Asia", aggRegion dfC4 LC4 psC4 "Africa"] := rfl
      rw [hmr]
      exact List.Perm.swap _ _ _
    · decide
  · exact outC4_latamVal
  · have hAf : (aggRegion dfC4 LC4 psC4 "Africa").valor = some 3 := by decide
    have hAs : (aggRegion dfC4 LC4 psC4 "Asia").valor = some 1 := by decide
    have hws : withSpread outC4 =
        [(aggRegion dfC4 LC4 psC4 "Africa", (aggRegion dfC4 LC4 psC4 "Africa").valor.bind
            (fun v => (latamVal outC4).map (fun lv => (v - lv) * 100))),
         (aggRegion dfC4 LC4 psC4 "Asia", (aggRegion dfC4 LC4 psC4 "Asia").valor.bind
            (fun v => (latamVal outC4).map (fun lv => (v - lv) * 100)))] := rfl
    rw [hws]
    simp only [outC4_latamVal, hAf, hAs, Option.some_bind, Option.map_some']
    norm_num

/-- C4, witness: the no-match branch on the spec's Asia/Africa example, the
spread formula at Africa's row, and the exact-match zero spread for the
"Latino" row of `dfLat`. -/
theorem latam_reference_ok_witness :
    latamVal outC4 = meanValor? (metricsRows dfC4 LC4 psC4) ∧
    (aggRegion dfC4 LC4 psC4 "Africa", some (((3 : ℚ) - 2) * 100)) ∈ withSpread outC4 ∧
    (aggRegion dfLat LLat psLat "Latino", some 0) ∈ withSpread outLat :=
  ⟨latam_reference_ok.1 dfC4 LC4 psC4 outC4 latam_reference_ok.2.2.2.1 (by decide),
   latam_reference_ok.2.1 outC4 (aggRegion dfC4 LC4 psC4 "Africa") 3 2
     (List.mem_cons_self _ _) (by decide) latam_reference_ok.2.2.2.2.1,
   latam_reference_ok.2.2.1 outLat (aggRegion dfLat LLat psLat "Latino") 7
     (by rfl) (by decide)⟩

theorem descOkB_trans (a b c : Option ℚ) (h1 : descOkB a b = true) (h2 : descOkB b c = true) :
    descOkB a c = true := by
  cases a <;> cases b <;> cases c <;> simp [descOkB] at h1 h2 ⊢
  exact le_trans h2 h1

theorem descOkB_total (a b : Option ℚ) : (descOkB a b || descOkB b a) = true := by
  cases a <;> cases b <;> simp [descOkB]
  exact le_total _ _

theorem sortedMetrics_isOutput (df : List Row) (L : Date) (ps : List (String × Date)) :
    isMetricsOutput df L ps (sortedMetrics df L ps) := by
  constructor
  · exact List.mergeSort_perm _ _
  · exact @List.sorted_mergeSort MRow (fun a b : MRow => descOkB a.valor b.valor)
      (fun a b c => descOkB_trans a.valor b.valor c.valor)
      (fun a b => descOkB_total a.valor b.valor) (metricsRows df L ps)

theorem out6swap_isOutput : isMetricsOutput df6 L6 ps6 out6swap := by
  constructor
  · have hmr : metricsRows df6 L6 ps6 = [aggRegion df6 L6 ps6 "A", aggRegion df6 L6 ps6 "B"] :=
      rfl
    rw [hmr]
    exact List.Perm.swap _ _ _
  · decide

theorem out6id_isOutput : isMetricsOutput df6 L6 ps6 out6id := by
  constructor
  · exact List.Perm.refl _
  · decide

/-- C6, counterexample.  On `df6` both regions have current value 5.0; the
table listing region "B" before region "A" is an admissible result of the
unstable `sort` (polars gives no tie-order guarantee), yet it violates the
claimed original-region-iteration tie order. -/
theorem metrics_tieOrder_unstable_cex :
    isMetricsOutput df6 L6 ps6 out6swap ∧ ¬ StableByRegionOrder df6 out6swap :=
  ⟨out6swap_isOutput, by decide⟩

/-- C6, amended: every admissible metrics table is sorted descending by
`Valor` (and such a table exists), but the relative order of rows with equal
`Valor` is not specified. -/
theorem metricsOutput_sorted (df : List Row) (L : Date) (ps : List (String × Date)) :
    isMetricsOutput df L ps (sortedMetrics df L ps) ∧
    (∀ out, isMetricsOutput df L ps out →
      out.Pairwise descRel ∧ out.Perm (metricsRows df L ps)) :=
  ⟨sortedMetrics_isOutput df L ps, fun _ h => ⟨h.2, h.1⟩⟩

/-- C6, witness: the merge-sorted table of `df6` is admissible, and the
tie-swapped admissible table `out6swap` is indeed sorted descending. -/
theorem metricsOutput_sorted_witness :
    isMetricsOutput df6 L6 ps6 (sortedMetrics df6 L6 ps6) ∧
    out6swap.Pairwise descRel ∧ out6swap.Perm (metricsRows df6 L6 ps6) :=
  ⟨(metricsOutput_sorted df6 L6 ps6).1,
   (metricsOutput_sorted df6 L6 ps6).2 out6swap out6swap_isOutput⟩

/-- C7, counterexample.  On the tied frame `df6` the aggregation contract
admits two different output tables (`out6id` and `out6swap`), so a rerun may
produce a different row order: byte-identical output is not guaranteed. -/
theorem metrics_not_deterministic_cex :
    isMetricsOutput df6 L6 ps6 out6id ∧ isMetricsOutput df6 L6 ps6 out6swap ∧
    out6id ≠ out6swap :=
  ⟨out6id_isOutput, out6swap_isOutput, by decide⟩

/-- C7, amended: any two admissible outputs on the same frame are
permutations of each other (same rows, same values), and when the regions'
current values are pairwise distinct the output is unique, hence rerunning
is deterministic in that case. -/
theorem metricsOutput_unique_of_distinct (df : List Row) (L : Date) (ps : List (String × Date))
    (out1 out2 : List MRow)
    (h1 : isMetricsOutput df L ps out1) (h2 : isMetricsOutput df L ps out2) :
    out1.Perm out2 ∧
    (((metricsRows df L ps).map MRow.valor).Nodup → out1 = out2) := by
  have hperm : out1.Perm out2 := h1.1.trans h2.1.symm
  refine ⟨hperm, fun hnd => ?_⟩
  have hstrict : ∀ out : List MRow, isMetricsOutput df L ps out →
      out.Pairwise (fun a b => descRel a b ∧ a.valor ≠ b.valor) := by
    intro out h
    have hn1 : (out.map MRow.valor).Nodup := ((h.1.map MRow.valor).nodup_iff).mpr hnd
    have hpne : out.Pairwise (fun a b => a.valor ≠ b.valor) := List.pairwise_map.mp hn1
    exact h.2.and hpne
  haveI : IsAntisymm MRow (fun a b => descRel a b ∧ a.valor ≠ b.valor) := by
    constructor
    intro a b hab hba
    exfalso
    rcases hab with ⟨hab1, hab2⟩
    rcases hba with ⟨hba1, _⟩
    unfold descRel at hab1 hba1
    cases ha : a.valor <;> cases hb : b.valor <;> rw [ha, hb] at hab1 hba1 <;>
      simp [descOkB] at hab1 hba1
    · exact hab2 (ha.trans hb.symm)
    · exact hab2 (by rw [ha, hb, le_antisymm hba1 hab1])
  exact List.eq_of_perm_of_sorted hperm (hstrict out1 h1) (hstrict out2 h2)

/-- C7, witness: on `df7` (distinct current values 1.0 and 3.0) the
descending table is unique, so the two admissible outputs coincide. -/
theorem metricsOutput_unique_witness :
    out7.Perm (sortedMetrics df7 L7 ps7) ∧ out7 = sortedMetrics df7 L7 ps7 := by
  have h1 : isMetricsOutput df7 L7 ps7 out7 := by
    constructor
    · have hmr : metricsRows df7 L7 ps7 = [aggRegion df7 L7 ps7 "A", aggRegion df7 L7 ps7 "B"] :=
        rfl
      rw [hmr]
      exact List.Perm.swap _ _ _
    · decide
  have h := metricsOutput_unique_of_distinct df7 L7 ps7 out7 (sortedMetrics df7 L7 ps7) h1
    (sortedMetrics_isOutput df7 L7 ps7)
  exact ⟨h.1, h.2 (by decide)⟩

/-- C5: the filtered series contains only rows inside the date window and
the selected regions, and the rolling value at a position of that series is
null while fewer than 50 same-region observations of the filtered slice are
available (window warm-up restarts at the filter boundary), and at exactly
the 50th same-region observation it is the arithmetic mean of that slice's
same-region observations 1-50. -/
theorem rolling_warmup (df : List Row) (sel : List String) (sd ed : Date) :
    (∀ row ∈ seriesOf df sel sd ed, sd ≤ row.date ∧ row.date ≤ ed ∧ row.region ∈ sel) ∧
    (∀ i row, (seriesOf df sel sd ed)[i]? = some row →
      ((priorSame (seriesOf df sel sd ed) i row.region).length < 50 →
        rollAt (seriesOf df sel sd ed) i = none) ∧
      ((priorSame (seriesOf df sel sd ed) i row.region).length = 50 →
        rollAt (seriesOf df sel sd ed) i =
          some (listMean ((priorSame (seriesOf df sel sd ed) i row.region).map Row.value)))) := by
  constructor
  · intro row hrow
    unfold seriesOf at hrow
    have h1 := List.mem_filter.mp hrow
    have h2 := List.mem_filter.mp h1.1
    have hb := h1.2
    rw [Bool.and_eq_true] at hb
    rcases hb with ⟨hb1, hb2⟩
    exact ⟨of_decide_eq_true hb1, of_decide_eq_true hb2, List.mem_of_elem_eq_true h2.2⟩
  · intro i row hi
    constructor
    · intro hlt
      simp only [rollAt, hi]
      rw [if_pos hlt]
    · intro hlen
      simp only [rollAt, hi]
      rw [if_neg (by rw [hlen]; exact lt_irrefl 50), hlen]
      simp

/-- C5, witness: in the 55-row filtered series `df5` the rolling value is
null at position 4 (only 5 observations available) and at position 49 it is
the mean of the first 50 observations of the filtered slice. -/
theorem rolling_warmup_witness :
    rollAt (seriesOf df5 sel5 sd5 ed5) 4 = none ∧
    rollAt (seriesOf df5 sel5 sd5 ed5) 49 =
      some (listMean ((priorSame (seriesOf df5 sel5 sd5 ed5) 49 "A").map Row.value)) := by
  have h := (rolling_warmup df5 sel5 sd5 ed5).2
  exact ⟨(h 4 ⟨mkDate 2024 1 1 + 4, "A", ((4 : ℕ) : ℚ)⟩ (by decide)).1 (by decide),
         (h 49 ⟨mkDate 2024 1 1 + 49, "A", ((49 : ℕ) : ℚ)⟩ (by decide)).2 (by decide)⟩

/-- C8: on a table with a `date` and a `region` column but no `value`
column, collecting the adapted frame raises polars' column-not-found error
for `value` — not the `SchemaError` of the missing-columns check on line 33
(which a successful collect makes unreachable, since the casts already
require all three columns; on the tidy `rawGood` the check passes). -/
theorem loadMissingValue_columnNotFound :
    loadAndCheck raw8 = Except.error (Err.columnNotFound "value") ∧
    loadAndCheck rawGood = Except.ok rawGood :=
  ⟨rfl, rfl⟩

/-- C9, counterexample: on the empty frame the pipeline does NOT fail with
the spec's `EmptyDatasetError`. -/
theorem emptyFrame_not_emptyDatasetError :
    latestYearE ([] : List Row) ≠ Except.error Err.emptyDataset := by
  intro h
  rw [show latestYearE ([] : List Row) = Except.error Err.attrNoneYear from rfl] at h
  injection h with h2
  exact absurd h2 (by decide)

/-- C9, amended: on the empty frame `latest_date` is `None` and the
`.year` attribute access on line 38 fails — the run halts with that
null-access error, not with a dedicated empty-dataset error. -/
theorem emptyFrame_attrError :
    latestYearE ([] : List Row) = Except.error Err.attrNoneYear := rfl

/-- C10, counterexample: on a table with `date` and `value` but no `region`
the unpivot is skipped, yet the pipeline halts with the column-not-found
error from the casts, not at the missing-columns `SchemaError` check the
claim names. -/
theorem partialTidy_halts_at_cast_cex :
    unpivotStep (renameDate raw10) = Except.ok (renameDate raw10) ∧
    loadAndCheck raw10 = Except.error (Err.columnNotFound "region") ∧
    Err.columnNotFound "region" ≠ Err.schemaError :=
  ⟨rfl, rfl, by decide⟩

/-- C10, amended: whenever `region` or `value` is present after the rename,
no wide-to-tidy reshape happens; and when additionally `date` and `value`
are present but `region` is not, the pipeline halts with the
column-not-found error raised while collecting the casts (before the
missing-columns check can run). -/
theorem unpivot_only_when_both_absent (t : RawTable)
    (h : "region" ∈ (renameDate t).header ∨ "value" ∈ (renameDate t).header) :
    unpivotStep (renameDate t) = Except.ok (renameDate t) ∧
    ("date" ∈ (renameDate t).header → "region" ∉ (renameDate t).header →
      loadAndCheck t = Except.error (Err.columnNotFound "region")) := by
  have hskip : unpivotStep (renameDate t) = Except.ok (renameDate t) := by
    unfold unpivotStep
    rw [if_neg]
    rcases h with h | h
    · exact fun hc => hc.1 h
    · exact fun hc => hc.2 h
  refine ⟨hskip, fun hd hr => ?_⟩
  have hld : loadData t = Except.error (Err.columnNotFound "region") := by
    unfold loadData
    rw [hskip]
    show castStep (renameDate t) = Except.error (Err.columnNotFound "region")
    unfold castStep
    rw [if_neg (not_not_intro hd), if_pos hr]
  unfold loadAndCheck
  rw [hld]

/-- C10, witness: the amended statement applied to the `date`+`value`
table `raw10`. -/
theorem unpivot_only_when_both_absent_witness :
    unpivotStep (renameDate raw10) = Except.ok (renameDate raw10) ∧
    loadAndCheck raw10 = Except.error (Err.columnNotFound "region") := by
  have h := unpivot_only_when_both_absent raw10 (Or.inr (by decide))
  exact ⟨h.1, h.2 (by decide) (by decide)⟩

end EMBI
